import Mathlib

set_option maxHeartbeats 1000000
set_option linter.unusedVariables false

/-!
Shallow embedding of the client registry and reconciliation engine of
litestream-manager (`src/main.go`).  Go strings are modelled as lists of
characters, Go maps as association lists with Go assignment/deletion
semantics, and the external litestream session as its path handle together
with an `openOk` oracle standing for the outcome of `lsdb.Open()`.
-/

/-- Characters of a Go string; paths are treated as character sequences. -/
abbrev Str := List Char

/-- The trailing-separator stripping loop of Go `filepath.Base`. -/
def stripTrailingSlashes (p : Str) : Str :=
  (p.reverse.dropWhile (fun c => c == '/')).reverse

/-- The suffix after the last `'/'` of the path (all of it when none). -/
def afterLastSlash (p : Str) : Str :=
  (p.reverse.takeWhile (fun c => !(c == '/'))).reverse

/-- Go `filepath.Base`: `"."` on empty input, otherwise the last element of
the path after dropping trailing separators, `"/"` when only separators. -/
def filepathBase (p : Str) : Str :=
  if p = [] then ['.']
  else
    let r := afterLastSlash (stripTrailingSlashes p)
    if r = [] then ['/'] else r

/-- The backwards scan of Go `filepath.Ext`: walking the reversed path,
stop with `""` at a separator, and at a `'.'` return it plus the
characters already passed (the accumulator keeps them in file order). -/
def extFromRev : Str → Str → Str
  | [], _ => []
  | c :: rest, acc =>
    if c == '/' then []
    else if c == '.' then '.' :: acc
    else extFromRev rest (c :: acc)

/-- Go `filepath.Ext`: the suffix from the final dot of the last element. -/
def filepathExt (p : Str) : Str := extFromRev p.reverse []

/-- List prefix test (Go `strings.HasPrefix` on reversed strings below). -/
def isPrefixList : Str → Str → Bool
  | [], _ => true
  | _ :: _, [] => false
  | a :: as, b :: bs => a == b && isPrefixList as bs

/-- Go `strings.HasSuffix`. -/
def hasSuffix (s suffix : Str) : Bool := isPrefixList suffix.reverse s.reverse

/-- Go `strings.TrimSuffix`: cut the suffix off when present. -/
def trimSuffix (s suffix : Str) : Str :=
  if hasSuffix s suffix then s.take (s.length - suffix.length) else s

/-- `isValidGUID` from main.go: length 36 and `'-'` at offsets 8, 13, 18
and 23; the remaining characters are NOT inspected. -/
def isValidGUID (s : Str) : Bool :=
  if s.length ≠ 36 then false
  else if ¬ (s.get? 8 = some '-' ∧ s.get? 13 = some '-' ∧
             s.get? 18 = some '-' ∧ s.get? 23 = some '-') then false
  else true

/-- `extractClientID` from main.go: the stem of the base name when it is a
valid GUID, the empty string otherwise. -/
def extractClientID (dbPath : Str) : Str :=
  let base := filepathBase dbPath
  let guid := trimSuffix base (filepathExt base)
  if isValidGUID guid then guid else []

/-- Go `strings.ToLower`, restricted to the ASCII range it is used on. -/
def toLowerStr (s : Str) : Str := s.map Char.toLower

/-- `isDatabaseFile` from main.go: the lowered extension is one of the
three allowed database extensions. -/
def isDatabaseFile (filename : Str) : Bool :=
  let ext := toLowerStr (filepathExt filename)
  ext == ".db".data || ext == ".sqlite".data || ext == ".sqlite3".data

/-- Hexadecimal digit, case-insensitive (the spec's character class). -/
def isHexDigit (c : Char) : Bool :=
  ('0' ≤ c ∧ c ≤ '9') ∨ ('a' ≤ c ∧ c ≤ 'f') ∨ ('A' ≤ c ∧ c ≤ 'F')

/-- Modelled from the spec: a valid identity token — length 36, hyphens at
offsets 8, 13, 18, 23, every other position a hexadecimal character. -/
def specValidToken (t : Str) : Bool :=
  decide (t.length = 36) &&
  (List.range 36).all (fun i =>
    if i = 8 ∨ i = 13 ∨ i = 18 ∨ i = 23 then t.getD i ' ' == '-'
    else isHexDigit (t.getD i ' '))

/-- Modelled from the spec: reconstructing a filename from an identity
token — a directory prefix, a separator, the token, an extension. -/
def formatFilename (dir t ext : Str) : Str := dir ++ '/' :: (t ++ ext)

/-- `ClientConfig` from main.go (`time.Now()` is a `Nat` clock value). -/
structure ClientConfig where
  clientID : Str
  databasePath : Str
  createdAt : Nat
  deriving DecidableEq

/-- Lookup in a Go map modelled as an association list. -/
def mapLookup {β : Type} (m : List (Str × β)) (k : Str) : Option β :=
  match m with
  | [] => none
  | (k', v) :: rest => if k' = k then some v else mapLookup rest k

/-- Go `delete(m, k)`: the key is absent afterwards. -/
def mapErase {β : Type} (m : List (Str × β)) (k : Str) : List (Str × β) :=
  match m with
  | [] => []
  | (k', v) :: rest =>
    if k' = k then mapErase rest k else (k', v) :: mapErase rest k

/-- Go `m[k] = v`: the key now maps to `v`, all other keys unchanged. -/
def mapInsert {β : Type} (m : List (Str × β)) (k : Str) (v : β) :
    List (Str × β) :=
  (k, v) :: mapErase m k

/-- The mutable registry state of `DatabaseManager`: `databases` keeps per
client the path its litestream handle was opened on, `clients` the
`ClientConfig`, `pathIndex` the reverse path-to-client index. -/
structure DMState where
  databases : List (Str × Str)
  clients : List (Str × ClientConfig)
  pathIndex : List (Str × Str)
  deriving DecidableEq

/-- The error outcomes `registerDatabase` can return (Go `error`). -/
inductive RegisterErr where
  | invalidGUID
  | alreadyRegistered
  | pathConflict
  | openFailed
  deriving DecidableEq

/-- The empty maps built by `NewDatabaseManager`. -/
def initialState : DMState := ⟨[], [], []⟩

/-- `registerDatabase` from main.go.  `openOk` stands for the outcome of
`lsdb.Open()` on the given path, `now` for `time.Now()`.  The state
component is the registry after the call, the second component the
returned Go error (`Except.ok` is `nil`). -/
def registerDatabase (openOk : Str → Bool) (now : Nat) (s : DMState)
    (dbPath : Str) : DMState × Except RegisterErr Unit :=
  let clientID := extractClientID dbPath
  if clientID = [] then (s, .error .invalidGUID)
  else if (mapLookup s.databases clientID).isSome then
    (s, .error .alreadyRegistered)
  else if (mapLookup s.pathIndex dbPath).isSome then
    (s, .error .pathConflict)
  else if openOk dbPath then
    ({ databases := mapInsert s.databases clientID dbPath,
       clients := mapInsert s.clients clientID ⟨clientID, dbPath, now⟩,
       pathIndex := mapInsert s.pathIndex dbPath clientID }, .ok ())
  else (s, .error .openFailed)

/-- `unregisterDatabase` from main.go.  `closeOk` stands for the outcome
of `lsdb.Close()`, whose error the code discards; both branches return a
`nil` error. -/
def unregisterDatabase (closeOk : Bool) (s : DMState) (dbPath : Str) :
    DMState × Except RegisterErr Unit :=
  match mapLookup s.pathIndex dbPath with
  | none => (s, .ok ())
  | some clientID =>
    ({ databases := mapErase s.databases clientID,
       clients := mapErase s.clients clientID,
       pathIndex := mapErase s.pathIndex dbPath }, .ok ())

/-- One visit of the `filepath.Walk` callback in `scanExistingDatabases`:
`errored` means the walk delivered a non-nil error for this path. -/
structure WalkEntry where
  path : Str
  isDir : Bool
  errored : Bool

/-- The body of the walk callback for a non-errored visit: attempt
registration for non-directory database files of unregistered clients. -/
def scanStep (openOk : Str → Bool) (now : Nat) (s : DMState)
    (e : WalkEntry) : DMState :=
  if e.isDir = false ∧ isDatabaseFile e.path = true then
    let clientID := extractClientID e.path
    if clientID ≠ [] ∧ mapLookup s.databases clientID = none then
      (registerDatabase openOk now s e.path).1
    else s
  else s

/-- `filepath.Walk` as used in `scanExistingDatabases`: the callback
returns the delivered error, which aborts the walk; registration failures
are only logged.  The boolean records whether the walk returned an error. -/
def scanWalk (openOk : Str → Bool) (now : Nat) :
    DMState → List WalkEntry → DMState × Bool
  | s, [] => (s, false)
  | s, e :: rest =>
    if e.errored then (s, true)
    else scanWalk openOk now (scanStep openOk now s e) rest

/-- `scanExistingDatabases` from main.go: walk every watched directory;
a directory whose walk errored is only logged, the loop continues. -/
def scanExistingDatabases (openOk : Str → Bool) (now : Nat) (s : DMState)
    (dirs : List (List WalkEntry)) : DMState :=
  dirs.foldl (fun st entries => (scanWalk openOk now st entries).1) s

/-- Registry states reachable from the fresh manager through register and
unregister calls. -/
inductive Reachable : DMState → Prop
  | init : Reachable initialState
  | register (f : Str → Bool) (now : Nat) (p : Str) {s : DMState} :
      Reachable s → Reachable (registerDatabase f now s p).1
  | unregister (b : Bool) (p : Str) {s : DMState} :
      Reachable s → Reachable (unregisterDatabase b s p).1

/-- The registry consistency invariant: `clients` and `databases` have the
same keys, the path index and the record map point at each other (so each
registered identity has exactly one path, the record's `DatabasePath`),
and no map holds two entries for one key. -/
structure RegistryInv (s : DMState) : Prop where
  dbClientKeys : ∀ c, (mapLookup s.databases c).isSome ↔
    (mapLookup s.clients c).isSome
  pathToRecord : ∀ p c, mapLookup s.pathIndex p = some c →
    ∃ cfg, mapLookup s.clients c = some cfg ∧ cfg.databasePath = p
  recordToPath : ∀ c cfg, mapLookup s.clients c = some cfg →
    cfg.clientID = c ∧ mapLookup s.pathIndex cfg.databasePath = some c
  dbNodup : (s.databases.map Prod.fst).Nodup
  clNodup : (s.clients.map Prod.fst).Nodup
  piNodup : (s.pathIndex.map Prod.fst).Nodup

/-- The index invariant behind claim C10: every indexed path maps to the
identity extracted from it, that identity has a live database, and no two
paths share an identity. -/
def PathInv (s : DMState) : Prop :=
  (∀ p c, mapLookup s.pathIndex p = some c →
    c = extractClientID p ∧ (mapLookup s.databases c).isSome = true) ∧
  (∀ p₁ p₂ c, mapLookup s.pathIndex p₁ = some c →
    mapLookup s.pathIndex p₂ = some c → p₁ = p₂)

/-! ### Association-list map lemmas -/

theorem mapLookup_erase {β : Type} (m : List (Str × β)) (k q : Str) :
    mapLookup (mapErase m k) q = if k = q then none else mapLookup m q := by
  induction m with
  | nil => simp [mapErase, mapLookup]
  | cons hd tl ih =>
    obtain ⟨a, b⟩ := hd
    by_cases hak : a = k
    · subst hak
      by_cases haq : a = q
      · subst haq; simp [mapErase, mapLookup, ih]
      · simp [mapErase, mapLookup, ih, haq]
    · by_cases haq : a = q
      · subst haq
        have hkq : k ≠ a := fun h => hak h.symm
        simp [mapErase, mapLookup, hak, hkq]
      · simp [mapErase, mapLookup, hak, haq, ih]

theorem mapLookup_insert {β : Type} (m : List (Str × β)) (k q : Str)
    (v : β) :
    mapLookup (mapInsert m k v) q = if k = q then some v else mapLookup m q := by
  by_cases hkq : k = q
  · subst hkq; simp [mapInsert, mapLookup]
  · simp [mapInsert, mapLookup, hkq, mapLookup_erase]

theorem keys_erase {β : Type} (m : List (Str × β)) (k : Str) :
    (mapErase m k).map Prod.fst =
      (m.map Prod.fst).filter (fun a => !(a == k)) := by
  induction m with
  | nil => simp [mapErase]
  | cons hd tl ih =>
    obtain ⟨a, b⟩ := hd
    by_cases h : a = k <;> simp [mapErase, h, ih]

theorem keys_erase_nodup {β : Type} (m : List (Str × β)) (k : Str)
    (h : (m.map Prod.fst).Nodup) : ((mapErase m k).map Prod.fst).Nodup := by
  rw [keys_erase]; exact h.filter _

theorem not_mem_keys_erase {β : Type} (m : List (Str × β)) (k : Str) :
    k ∉ (mapErase m k).map Prod.fst := by
  rw [keys_erase]
  intro h
  have := List.of_mem_filter h
  simp at this

theorem keys_insert_nodup {β : Type} (m : List (Str × β)) (k : Str) (v : β)
    (h : (m.map Prod.fst).Nodup) :
    ((mapInsert m k v).map Prod.fst).Nodup := by
  have : (mapInsert m k v).map Prod.fst = k :: (mapErase m k).map Prod.fst := by
    simp [mapInsert]
  rw [this]
  exact List.nodup_cons.2 ⟨not_mem_keys_erase m k, keys_erase_nodup m k h⟩

/-! ### Branch lemmas for `registerDatabase` -/

theorem registerDatabase_invalid (f : Str → Bool) (now : Nat) (s : DMState)
    (p : Str) (h : extractClientID p = []) :
    registerDatabase f now s p = (s, .error .invalidGUID) := by
  simp [registerDatabase, h]

theorem registerDatabase_already (f : Str → Bool) (now : Nat) (s : DMState)
    (p : Str) (h1 : extractClientID p ≠ [])
    (h2 : (mapLookup s.databases (extractClientID p)).isSome = true) :
    registerDatabase f now s p = (s, .error .alreadyRegistered) := by
  simp [registerDatabase, h1, h2]

theorem registerDatabase_conflict (f : Str → Bool) (now : Nat) (s : DMState)
    (p : Str) (h1 : extractClientID p ≠ [])
    (h2 : mapLookup s.databases (extractClientID p) = none)
    (h3 : (mapLookup s.pathIndex p).isSome = true) :
    registerDatabase f now s p = (s, .error .pathConflict) := by
  simp [registerDatabase, h1, h2, h3]

theorem registerDatabase_openFail (f : Str → Bool) (now : Nat) (s : DMState)
    (p : Str) (h1 : extractClientID p ≠ [])
    (h2 : mapLookup s.databases (extractClientID p) = none)
    (h3 : mapLookup s.pathIndex p = none)
    (h4 : f p = false) :
    registerDatabase f now s p = (s, .error .openFailed) := by
  simp [registerDatabase, h1, h2, h3, h4]

theorem registerDatabase_ok (f : Str → Bool) (now : Nat) (s : DMState)
    (p : Str) (h1 : extractClientID p ≠ [])
    (h2 : mapLookup s.databases (extractClientID p) = none)
    (h3 : mapLookup s.pathIndex p = none)
    (h4 : f p = true) :
    registerDatabase f now s p =
      ({ databases := mapInsert s.databases (extractClientID p) p,
         clients := mapInsert s.clients (extractClientID p)
           ⟨extractClientID p, p, now⟩,
         pathIndex := mapInsert s.pathIndex p (extractClientID p) }, .ok ()) := by
  simp [registerDatabase, h1, h2, h3, h4]

deriving instance DecidableEq for Except

/-! ### Sample data used by witnesses -/

/-- A well-formed client path. -/
def samplePath : Str := "/data/12345678-1234-5678-9abc-123456789012.db".data

/-- The identity embedded in `samplePath`. -/
def sampleGuid : Str := "12345678-1234-5678-9abc-123456789012".data

/-- A registry holding the one client of `samplePath`. -/
def sampleState : DMState :=
  (registerDatabase (fun _ => true) 0 initialState samplePath).1

/-! ### Claims C3, C4, C6, C7, C8 -/

/-- C3 counterexample: for a path whose filename stem fails identity
extraction, `registerDatabase` returns a non-nil Go error (the
"invalid GUID format" error), not a non-error outcome — refuting the
claim that the result is not an error (the state is indeed unchanged). -/
theorem register_not_client_is_error_counterexample :
    registerDatabase (fun _ => true) 0 initialState "/data/notaguid.db".data
      = (initialState, Except.error RegisterErr.invalidGUID) := by decide

/-- C3 (amended): for every path whose filename stem fails identity
extraction, `registerDatabase` returns the "invalid GUID format" error and
leaves the registry state unchanged. -/
theorem register_invalid_identity_error_unchanged (f : Str → Bool)
    (now : Nat) (s : DMState) (p : Str) (h : extractClientID p = []) :
    registerDatabase f now s p = (s, Except.error RegisterErr.invalidGUID) :=
  registerDatabase_invalid f now s p h

/-- C3 witness. -/
theorem register_invalid_identity_error_unchanged_witness :
    registerDatabase (fun _ => false) 7 sampleState "/tmp/short.db".data
      = (sampleState, Except.error RegisterErr.invalidGUID) :=
  register_invalid_identity_error_unchanged (fun _ => false) 7 sampleState
    "/tmp/short.db".data (by decide)

/-- C4: when the session open fails during `registerDatabase`, the error
is propagated as the "failed to open database" outcome, the registry state
is exactly as before the call, and a later register call for the same path
with a succeeding open inserts the client. -/
theorem register_open_failure_propagates (f g : Str → Bool)
    (now now' : Nat) (s : DMState) (p : Str)
    (hid : extractClientID p ≠ [])
    (hdb : mapLookup s.databases (extractClientID p) = none)
    (hpi : mapLookup s.pathIndex p = none)
    (hopen : f p = false) :
    registerDatabase f now s p = (s, Except.error RegisterErr.openFailed) ∧
    (g p = true →
      (registerDatabase g now' s p).2 = Except.ok () ∧
      mapLookup (registerDatabase g now' s p).1.databases
        (extractClientID p) = some p ∧
      mapLookup (registerDatabase g now' s p).1.pathIndex p
        = some (extractClientID p)) := by
  refine ⟨registerDatabase_openFail f now s p hid hdb hpi hopen, fun hg => ?_⟩
  rw [registerDatabase_ok g now' s p hid hdb hpi hg]
  simp [mapLookup_insert]

/-- C4 witness. -/
theorem register_open_failure_propagates_witness :
    registerDatabase (fun _ => false) 3 initialState samplePath
      = (initialState, Except.error RegisterErr.openFailed) ∧
    ((fun _ : Str => true) samplePath = true →
      (registerDatabase (fun _ => true) 4 initialState samplePath).2
        = Except.ok () ∧
      mapLookup (registerDatabase (fun _ => true) 4 initialState
        samplePath).1.databases (extractClientID samplePath)
        = some samplePath ∧
      mapLookup (registerDatabase (fun _ => true) 4 initialState
        samplePath).1.pathIndex samplePath
        = some (extractClientID samplePath)) :=
  register_open_failure_propagates (fun _ => false) (fun _ => true) 3 4
    initialState samplePath (by decide) (by decide) (by decide) (by decide)

/-- C6: registering a path whose identity already has a live record
returns the "already registered" error and changes nothing — the state is
returned untouched and the outcome does not depend on the session-open
oracle or the clock, so no session is started and no map is modified. -/
theorem register_already_registered_no_side_effects (f : Str → Bool)
    (now : Nat) (s : DMState) (p : Str)
    (hid : extractClientID p ≠ [])
    (hreg : (mapLookup s.databases (extractClientID p)).isSome = true) :
    registerDatabase f now s p
      = (s, Except.error RegisterErr.alreadyRegistered) :=
  registerDatabase_already f now s p hid hreg

/-- C6 witness: the second registration of `samplePath`. -/
theorem register_already_registered_no_side_effects_witness :
    registerDatabase (fun _ => false) 9 sampleState samplePath
      = (sampleState, Except.error RegisterErr.alreadyRegistered) :=
  register_already_registered_no_side_effects (fun _ => false) 9 sampleState
    samplePath (by decide) (by decide)

/-- C7: unregistering a path absent from the path index is a silent no-op
returning a nil error with the state unchanged; consequently a second
unregister of any path is always a no-op returning a nil error. -/
theorem unregister_missing_noop_idempotent (b b' : Bool) (s : DMState)
    (p : Str) :
    (mapLookup s.pathIndex p = none →
      unregisterDatabase b s p = (s, Except.ok ())) ∧
    unregisterDatabase b' (unregisterDatabase b s p).1 p
      = ((unregisterDatabase b s p).1, Except.ok ()) := by
  constructor
  · intro h
    simp [unregisterDatabase, h]
  · cases hp : mapLookup s.pathIndex p with
    | none => simp [unregisterDatabase, hp]
    | some c =>
      simp only [unregisterDatabase, hp]
      rw [show mapLookup (mapErase s.pathIndex p) p = none from by
        simp [mapLookup_erase]]

/-- C7 witness. -/
theorem unregister_missing_noop_idempotent_witness :
    (mapLookup sampleState.pathIndex "/data/other.db".data = none →
      unregisterDatabase true sampleState "/data/other.db".data
        = (sampleState, Except.ok ())) ∧
    unregisterDatabase false
      (unregisterDatabase true sampleState "/data/other.db".data).1
      "/data/other.db".data
      = ((unregisterDatabase true sampleState "/data/other.db".data).1,
         Except.ok ()) :=
  unregister_missing_noop_idempotent true false sampleState
    "/data/other.db".data

/-- C8: unregistering a registered path removes the client record, the
session entry and the path-index entry whatever the outcome of stopping
the session (the transition ignores the close outcome), and returns a nil
error: the record never survives the unregister request. -/
theorem unregister_removes_record_unconditionally (b : Bool) (s : DMState)
    (p c : Str) (h : mapLookup s.pathIndex p = some c) :
    (∀ b', unregisterDatabase b' s p = unregisterDatabase b s p) ∧
    mapLookup (unregisterDatabase b s p).1.databases c = none ∧
    mapLookup (unregisterDatabase b s p).1.clients c = none ∧
    mapLookup (unregisterDatabase b s p).1.pathIndex p = none ∧
    (unregisterDatabase b s p).2 = Except.ok () := by
  refine ⟨fun b' => rfl, ?_, ?_, ?_, ?_⟩ <;>
    simp [unregisterDatabase, h, mapLookup_erase]

/-- C8 witness. -/
theorem unregister_removes_record_unconditionally_witness :
    (∀ b', unregisterDatabase b' sampleState samplePath
      = unregisterDatabase false sampleState samplePath) ∧
    mapLookup (unregisterDatabase false sampleState
      samplePath).1.databases sampleGuid = none ∧
    mapLookup (unregisterDatabase false sampleState
      samplePath).1.clients sampleGuid = none ∧
    mapLookup (unregisterDatabase false sampleState
      samplePath).1.pathIndex samplePath = none ∧
    (unregisterDatabase false sampleState samplePath).2 = Except.ok () :=
  unregister_removes_record_unconditionally false sampleState samplePath
    sampleGuid (by decide)

/-! ### Claim C2: the registry consistency invariant is preserved -/

theorem registryInv_initial : RegistryInv initialState := by
  refine ⟨?_, ?_, ?_, ?_, ?_, ?_⟩ <;> simp [initialState, mapLookup]

theorem registryInv_register (f : Str → Bool) (now : Nat) (s : DMState)
    (p : Str) (h : RegistryInv s) :
    RegistryInv (registerDatabase f now s p).1 := by
  by_cases h1 : extractClientID p = []
  · rw [registerDatabase_invalid f now s p h1]; exact h
  by_cases h2 : (mapLookup s.databases (extractClientID p)).isSome = true
  · rw [registerDatabase_already f now s p h1 h2]; exact h
  have h2' : mapLookup s.databases (extractClientID p) = none :=
    Option.not_isSome_iff_eq_none.1 h2
  by_cases h3 : (mapLookup s.pathIndex p).isSome = true
  · rw [registerDatabase_conflict f now s p h1 h2' h3]; exact h
  have h3' : mapLookup s.pathIndex p = none :=
    Option.not_isSome_iff_eq_none.1 h3
  cases h4 : f p with
  | false => rw [registerDatabase_openFail f now s p h1 h2' h3' h4]; exact h
  | true =>
    rw [registerDatabase_ok f now s p h1 h2' h3' h4]
    refine ⟨?_, ?_, ?_, ?_, ?_, ?_⟩
    · intro c'
      simp only [mapLookup_insert]
      by_cases hcc : extractClientID p = c' <;>
        simp [hcc, h.dbClientKeys c']
    · intro q c' hq
      simp only [mapLookup_insert] at hq
      by_cases hpq : p = q
      · subst hpq
        simp only [if_pos rfl] at hq
        refine ⟨⟨extractClientID p, p, now⟩, ?_, rfl⟩
        rw [mapLookup_insert, if_pos (Option.some.inj hq)]
      · rw [if_neg hpq] at hq
        obtain ⟨cfg', hcfg', hdp⟩ := h.pathToRecord q c' hq
        have hcl : (mapLookup s.clients c').isSome = true := by
          rw [hcfg']; rfl
        have hdb := (h.dbClientKeys c').2 hcl
        have hcc : extractClientID p ≠ c' := by
          intro he
          rw [← he, h2'] at hdb
          simp at hdb
        exact ⟨cfg', by rw [mapLookup_insert]; simp [hcc, hcfg'], hdp⟩
    · intro c' cfg' hcfg
      simp only [mapLookup_insert] at hcfg
      by_cases hcc : extractClientID p = c'
      · rw [if_pos hcc] at hcfg
        have := Option.some.inj hcfg
        subst this
        refine ⟨hcc, ?_⟩
        rw [mapLookup_insert, if_pos rfl, ← hcc]
      · rw [if_neg hcc] at hcfg
        obtain ⟨hid', hpi'⟩ := h.recordToPath c' cfg' hcfg
        refine ⟨hid', ?_⟩
        have hne : p ≠ cfg'.databasePath := by
          intro he
          rw [← he, h3'] at hpi'
          cases hpi'
        rw [mapLookup_insert]
        simp [hne, hpi']
    · exact keys_insert_nodup _ _ _ h.dbNodup
    · exact keys_insert_nodup _ _ _ h.clNodup
    · exact keys_insert_nodup _ _ _ h.piNodup

theorem registryInv_unregister (b : Bool) (s : DMState) (p : Str)
    (h : RegistryInv s) :
    RegistryInv (unregisterDatabase b s p).1 := by
  cases hp : mapLookup s.pathIndex p with
  | none => simp only [unregisterDatabase, hp]; exact h
  | some c =>
    obtain ⟨cfg, hcfg, hdp⟩ := h.pathToRecord p c hp
    simp only [unregisterDatabase, hp]
    refine ⟨?_, ?_, ?_, ?_, ?_, ?_⟩
    · intro c'
      simp only [mapLookup_erase]
      by_cases hcc : c = c' <;> simp [hcc, h.dbClientKeys c']
    · intro q c' hq
      rw [mapLookup_erase] at hq
      by_cases hpq : p = q
      · rw [if_pos hpq] at hq; cases hq
      · rw [if_neg hpq] at hq
        obtain ⟨cfg', hcfg', hdp'⟩ := h.pathToRecord q c' hq
        have hcc : c ≠ c' := by
          intro he
          rw [← he, hcfg] at hcfg'
          have hcfgeq := Option.some.inj hcfg'
          rw [← hcfgeq, hdp] at hdp'
          exact hpq hdp'
        exact ⟨cfg', by rw [mapLookup_erase]; simp [hcc, hcfg'], hdp'⟩
    · intro c' cfg' hcfg'
      rw [mapLookup_erase] at hcfg'
      by_cases hcc : c = c'
      · rw [if_pos hcc] at hcfg'; cases hcfg'
      · rw [if_neg hcc] at hcfg'
        obtain ⟨hid', hpi'⟩ := h.recordToPath c' cfg' hcfg'
        refine ⟨hid', ?_⟩
        have hne : p ≠ cfg'.databasePath := by
          intro he
          rw [← he, hp] at hpi'
          exact hcc (Option.some.inj hpi')
        rw [mapLookup_erase]
        simp [hne, hpi']
    · exact keys_erase_nodup _ _ h.dbNodup
    · exact keys_erase_nodup _ _ h.clNodup
    · exact keys_erase_nodup _ _ h.piNodup

/-- C2: every `registerDatabase` and `unregisterDatabase` call preserves
the registry consistency invariant: `clients` and `databases` always have
equal key sets, the path index and the record map point at each other
(each registered identity owns exactly one indexed path, which is its
record's `DatabasePath`), and no identity or path has two entries. -/
theorem registry_consistency_preserved (f : Str → Bool) (now : Nat)
    (b : Bool) (s : DMState) (p q : Str) (h : RegistryInv s) :
    RegistryInv (registerDatabase f now s p).1 ∧
    RegistryInv (unregisterDatabase b s q).1 :=
  ⟨registryInv_register f now s p h, registryInv_unregister b s q h⟩

/-- C2 witness. -/
theorem registry_consistency_preserved_witness :
    RegistryInv
      (registerDatabase (fun _ => true) 0 initialState samplePath).1 ∧
    RegistryInv (unregisterDatabase true initialState samplePath).1 :=
  registry_consistency_preserved (fun _ => true) 0 true initialState
    samplePath samplePath registryInv_initial

/-! ### Claim C10: the path-conflict branch is unreachable -/

theorem pathInv_initial : PathInv initialState := by
  constructor <;> simp [initialState, mapLookup]

theorem pathInv_register (f : Str → Bool) (now : Nat) (s : DMState)
    (p : Str) (h : PathInv s) : PathInv (registerDatabase f now s p).1 := by
  by_cases h1 : extractClientID p = []
  · rw [registerDatabase_invalid f now s p h1]; exact h
  by_cases h2 : (mapLookup s.databases (extractClientID p)).isSome = true
  · rw [registerDatabase_already f now s p h1 h2]; exact h
  have h2' : mapLookup s.databases (extractClientID p) = none :=
    Option.not_isSome_iff_eq_none.1 h2
  by_cases h3 : (mapLookup s.pathIndex p).isSome = true
  · rw [registerDatabase_conflict f now s p h1 h2' h3]; exact h
  have h3' : mapLookup s.pathIndex p = none :=
    Option.not_isSome_iff_eq_none.1 h3
  cases h4 : f p with
  | false => rw [registerDatabase_openFail f now s p h1 h2' h3' h4]; exact h
  | true =>
    rw [registerDatabase_ok f now s p h1 h2' h3' h4]
    constructor
    · intro q c hq
      simp only [mapLookup_insert] at hq ⊢
      by_cases hpq : p = q
      · rw [if_pos hpq] at hq
        have hcq := Option.some.inj hq
        subst hpq
        refine ⟨hcq.symm, ?_⟩
        rw [← hcq, if_pos rfl]
        rfl
      · rw [if_neg hpq] at hq
        obtain ⟨hce, hdb⟩ := h.1 q c hq
        refine ⟨hce, ?_⟩
        by_cases hcc : extractClientID p = c
        · rw [if_pos hcc]; rfl
        · rw [if_neg hcc]; exact hdb
    · intro q₁ q₂ c hq₁ hq₂
      simp only [mapLookup_insert] at hq₁ hq₂
      by_cases hp₁ : p = q₁ <;> by_cases hp₂ : p = q₂
      · rw [← hp₁, ← hp₂]
      · rw [if_pos hp₁] at hq₁
        rw [if_neg hp₂] at hq₂
        have hce := Option.some.inj hq₁
        obtain ⟨_, hdb⟩ := h.1 q₂ c hq₂
        rw [← hce, h2'] at hdb
        cases hdb
      · rw [if_pos hp₂] at hq₂
        rw [if_neg hp₁] at hq₁
        have hce := Option.some.inj hq₂
        obtain ⟨_, hdb⟩ := h.1 q₁ c hq₁
        rw [← hce, h2'] at hdb
        cases hdb
      · rw [if_neg hp₁] at hq₁
        rw [if_neg hp₂] at hq₂
        exact h.2 q₁ q₂ c hq₁ hq₂

theorem pathInv_unregister (b : Bool) (s : DMState) (p : Str)
    (h : PathInv s) : PathInv (unregisterDatabase b s p).1 := by
  cases hp : mapLookup s.pathIndex p with
  | none => simp only [unregisterDatabase, hp]; exact h
  | some c =>
    simp only [unregisterDatabase, hp]
    constructor
    · intro q c' hq
      rw [mapLookup_erase] at hq
      by_cases hpq : p = q
      · rw [if_pos hpq] at hq; cases hq
      · rw [if_neg hpq] at hq
        obtain ⟨hce, hdb⟩ := h.1 q c' hq
        refine ⟨hce, ?_⟩
        have hcc : c ≠ c' := by
          intro he
          exact hpq (h.2 p q c hp (by rw [he]; exact hq))
        rw [mapLookup_erase, if_neg hcc]
        exact hdb
    · intro q₁ q₂ c' hq₁ hq₂
      rw [mapLookup_erase] at hq₁ hq₂
      by_cases hp₁ : p = q₁
      · rw [if_pos hp₁] at hq₁; cases hq₁
      · by_cases hp₂ : p = q₂
        · rw [if_pos hp₂] at hq₂; cases hq₂
        · rw [if_neg hp₁] at hq₁
          rw [if_neg hp₂] at hq₂
          exact h.2 q₁ q₂ c' hq₁ hq₂

theorem reachable_pathInv {s : DMState} (h : Reachable s) : PathInv s := by
  induction h with
  | init => exact pathInv_initial
  | register f now p _ ih => exact pathInv_register f now _ p ih
  | unregister b p _ ih => exact pathInv_unregister b _ p ih

/-- C10: in every reachable registry state the "path already mapped"
branch of `registerDatabase` cannot fire: an indexed path always maps to
the identity extracted from it, which then already has a live database, so
the earlier "already registered" check answers first and the call never
returns the path-conflict error. -/
theorem path_conflict_branch_unreachable (f : Str → Bool) (now : Nat)
    (s : DMState) (p : Str) (h : Reachable s) :
    (registerDatabase f now s p).2 ≠ Except.error RegisterErr.pathConflict := by
  have hinv := reachable_pathInv h
  intro hres
  by_cases h1 : extractClientID p = []
  · rw [registerDatabase_invalid f now s p h1] at hres; cases hres
  by_cases h2 : (mapLookup s.databases (extractClientID p)).isSome = true
  · rw [registerDatabase_already f now s p h1 h2] at hres; cases hres
  have h2' : mapLookup s.databases (extractClientID p) = none :=
    Option.not_isSome_iff_eq_none.1 h2
  cases hpi : mapLookup s.pathIndex p with
  | none =>
    cases h4 : f p with
    | false =>
      rw [registerDatabase_openFail f now s p h1 h2' hpi h4] at hres
      cases hres
    | true =>
      rw [registerDatabase_ok f now s p h1 h2' hpi h4] at hres
      cases hres
  | some c =>
    obtain ⟨hce, hdb⟩ := hinv.1 p c hpi
    rw [hce, h2'] at hdb
    cases hdb

/-- C10 witness. -/
theorem path_conflict_branch_unreachable_witness :
    (registerDatabase (fun _ => true) 0 initialState samplePath).2
      ≠ Except.error RegisterErr.pathConflict :=
  path_conflict_branch_unreachable (fun _ => true) 0 initialState
    samplePath Reachable.init

/-! ### Claim C5: error handling of the startup scan -/

theorem registerDatabase_fst_of_open_false (f : Str → Bool) (now : Nat)
    (s : DMState) (p : Str) (hf : f p = false) :
    (registerDatabase f now s p).1 = s := by
  unfold registerDatabase
  simp [hf]
  split
  · rfl
  · split
    · rfl
    · split <;> rfl

theorem scanStep_of_open_false (f : Str → Bool) (now : Nat) (s : DMState)
    (e : WalkEntry) (hf : f e.path = false) :
    scanStep f now s e = s := by
  unfold scanStep
  dsimp only
  split
  · split
    · rw [registerDatabase_fst_of_open_false f now s e.path hf]
    · rfl
  · rfl

/-- C5 counterexample: a walk error delivered for one file aborts the walk
of the directory — the later well-formed client file of the same listing
is never visited, although on its own it would have been registered.  This
refutes the claim that individual-file errors never stop the walk. -/
theorem scan_walk_error_counterexample :
    scanWalk (fun _ => true) 0 initialState
      [⟨"/data/unreadable.db".data, false, true⟩,
       ⟨samplePath, false, false⟩] = (initialState, true) ∧
    mapLookup (scanWalk (fun _ => true) 0 initialState
      [⟨samplePath, false, false⟩]).1.databases sampleGuid
      = some samplePath := by
  constructor <;> decide

/-- C5 (amended): during the startup scan, an error delivered by the walk
callback for a file aborts the walk of that directory; registration
failures for individual files, however, are only logged — the walk
continues with the state unchanged — and a directory whose walk aborted
does not prevent the remaining watched directories from being scanned. -/
theorem scan_walk_error_semantics (f : Str → Bool) (now : Nat)
    (s : DMState) (e : WalkEntry) (rest : List WalkEntry)
    (d : List WalkEntry) (ds : List (List WalkEntry)) :
    (e.errored = true → scanWalk f now s (e :: rest) = (s, true)) ∧
    (e.errored = false → f e.path = false →
      scanWalk f now s (e :: rest) = scanWalk f now s rest) ∧
    scanExistingDatabases f now s (d :: ds)
      = scanExistingDatabases f now (scanWalk f now s d).1 ds := by
  refine ⟨fun he => ?_, fun he hf => ?_, rfl⟩
  · simp [scanWalk, he]
  · simp [scanWalk, he, scanStep_of_open_false f now s e hf]

/-- C5 witness. -/
theorem scan_walk_error_semantics_witness :
    ((⟨samplePath, false, false⟩ : WalkEntry).errored = true →
      scanWalk (fun _ => false) 0 initialState
        [⟨samplePath, false, false⟩] = (initialState, true)) ∧
    ((⟨samplePath, false, false⟩ : WalkEntry).errored = false →
      (fun _ : Str => false) samplePath = false →
      scanWalk (fun _ => false) 0 initialState
        [⟨samplePath, false, false⟩]
        = scanWalk (fun _ => false) 0 initialState []) ∧
    scanExistingDatabases (fun _ => false) 0 initialState
      [[⟨samplePath, false, false⟩]]
      = scanExistingDatabases (fun _ => false) 0
        (scanWalk (fun _ => false) 0 initialState
          [⟨samplePath, false, false⟩]).1 [] :=
  scan_walk_error_semantics (fun _ => false) 0 initialState
    ⟨samplePath, false, false⟩ [] [⟨samplePath, false, false⟩] []

/-! ### Claim C1: which malformed stems are rejected -/

theorem isValidGUID_eq_true_iff (s : Str) :
    isValidGUID s = true ↔
      (s.length = 36 ∧ s.get? 8 = some '-' ∧ s.get? 13 = some '-' ∧
       s.get? 18 = some '-' ∧ s.get? 23 = some '-') := by
  unfold isValidGUID
  by_cases h1 : s.length = 36
  · by_cases h2 : s.get? 8 = some '-' ∧ s.get? 13 = some '-' ∧
        s.get? 18 = some '-' ∧ s.get? 23 = some '-'
    · rw [if_neg (not_not_intro h1), if_neg (not_not_intro h2)]
      exact iff_of_true rfl ⟨h1, h2⟩
    · rw [if_neg (not_not_intro h1), if_pos h2]
      exact iff_of_false (by decide) fun hx => h2 hx.2
  · rw [if_pos h1]
    exact iff_of_false (by decide) fun hx => h1 hx.1

/-- C1 counterexample: a filename stem whose 32 payload positions are all
the non-hexadecimal character `'z'` is accepted by identity extraction —
the extracted identity is the stem itself, not the empty string — because
`isValidGUID` checks only the length and the four hyphen offsets. -/
theorem extract_nonhex_accepted_counterexample :
    extractClientID "/data/zzzzzzzz-zzzz-zzzz-zzzz-zzzzzzzzzzzz.db".data
      = "zzzzzzzz-zzzz-zzzz-zzzz-zzzzzzzzzzzz".data ∧
    extractClientID "/data/zzzzzzzz-zzzz-zzzz-zzzz-zzzzzzzzzzzz.db".data
      ≠ [] ∧
    isHexDigit 'z' = false := by
  refine ⟨by decide, by decide, by decide⟩

/-- C1 (amended): identity extraction returns the empty string for every
filename stem that fails the structural check — wrong length, or a
character other than `'-'` at offset 8, 13, 18 or 23; stems passing that
check are accepted even when payload positions hold non-hex characters. -/
theorem extract_structural_invalid (p : Str)
    (h : ¬ ((trimSuffix (filepathBase p) (filepathExt (filepathBase p))).length = 36 ∧
      (trimSuffix (filepathBase p) (filepathExt (filepathBase p))).get? 8 = some '-' ∧
      (trimSuffix (filepathBase p) (filepathExt (filepathBase p))).get? 13 = some '-' ∧
      (trimSuffix (filepathBase p) (filepathExt (filepathBase p))).get? 18 = some '-' ∧
      (trimSuffix (filepathBase p) (filepathExt (filepathBase p))).get? 23 = some '-')) :
    extractClientID p = [] := by
  unfold extractClientID
  dsimp only
  rw [if_neg]
  intro hvalid
  exact h ((isValidGUID_eq_true_iff _).1 hvalid)

/-- C1 witness: a stem of the wrong length. -/
theorem extract_structural_invalid_witness :
    extractClientID "/data/short.db".data = [] :=
  extract_structural_invalid "/data/short.db".data (by decide)

/-! ### Claim C9: extraction is a left-inverse of filename formatting -/

theorem isHexDigit_ne_sep_dot (c : Char) (h : isHexDigit c = true) :
    c ≠ '/' ∧ c ≠ '.' :=
  ⟨fun he => absurd (he ▸ h) (by decide),
   fun he => absurd (he ▸ h) (by decide)⟩

theorem specValidToken_length (t : Str) (h : specValidToken t = true) :
    t.length = 36 := by
  unfold specValidToken at h
  rw [Bool.and_eq_true] at h
  exact of_decide_eq_true h.1

theorem specValidToken_pos (t : Str) (h : specValidToken t = true) (i : Nat)
    (hi : i < 36) :
    (i = 8 ∨ i = 13 ∨ i = 18 ∨ i = 23 → t.getD i ' ' = '-') ∧
    (¬ (i = 8 ∨ i = 13 ∨ i = 18 ∨ i = 23) →
      isHexDigit (t.getD i ' ') = true) := by
  unfold specValidToken at h
  rw [Bool.and_eq_true] at h
  have hall := List.all_eq_true.1 h.2 i (List.mem_range.2 hi)
  constructor
  · intro hc
    rw [if_pos hc] at hall
    exact eq_of_beq hall
  · intro hc
    rw [if_neg hc] at hall
    exact hall

theorem specValidToken_chars (t : Str) (h : specValidToken t = true) :
    ∀ c ∈ t, c ≠ '/' ∧ c ≠ '.' := by
  intro c hc
  obtain ⟨i, hilt, hgc⟩ := List.mem_iff_getElem.1 hc
  have hlen := specValidToken_length t h
  have hi36 : i < 36 := by rw [hlen] at hilt; exact hilt
  have hgd : t.getD i ' ' = c := by
    rw [List.getD_eq_getElem t ' ' hilt, hgc]
  by_cases hcase : i = 8 ∨ i = 13 ∨ i = 18 ∨ i = 23
  · have hdash := (specValidToken_pos t h i hi36).1 hcase
    rw [hgd] at hdash
    subst hdash
    exact ⟨by decide, by decide⟩
  · have hhex := (specValidToken_pos t h i hi36).2 hcase
    rw [hgd] at hhex
    exact isHexDigit_ne_sep_dot c hhex

theorem get?_eq_of_getD (t : Str) (i : Nat) (hi : i < t.length) (c : Char)
    (h : t.getD i ' ' = c) : t.get? i = some c := by
  rw [List.get?_eq_getElem?, List.getElem?_eq_getElem hi]
  rw [List.getD_eq_getElem t ' ' hi] at h
  rw [h]

theorem specValidToken_isValidGUID (t : Str)
    (h : specValidToken t = true) : isValidGUID t = true := by
  rw [isValidGUID_eq_true_iff]
  have hlen := specValidToken_length t h
  refine ⟨hlen, ?_, ?_, ?_, ?_⟩
  · exact get?_eq_of_getD t 8 (by omega) '-'
      ((specValidToken_pos t h 8 (by omega)).1 (Or.inl rfl))
  · exact get?_eq_of_getD t 13 (by omega) '-'
      ((specValidToken_pos t h 13 (by omega)).1 (Or.inr (Or.inl rfl)))
  · exact get?_eq_of_getD t 18 (by omega) '-'
      ((specValidToken_pos t h 18 (by omega)).1
        (Or.inr (Or.inr (Or.inl rfl))))
  · exact get?_eq_of_getD t 23 (by omega) '-'
      ((specValidToken_pos t h 23 (by omega)).1
        (Or.inr (Or.inr (Or.inr rfl))))

theorem takeWhile_append_of_all (q : Char → Bool) (l₁ l₂ : Str)
    (h : ∀ c ∈ l₁, q c = true) :
    (l₁ ++ l₂).takeWhile q = l₁ ++ l₂.takeWhile q := by
  induction l₁ with
  | nil => simp
  | cons a as ih =>
    have ha := h a (List.mem_cons_self a as)
    simp [List.takeWhile_cons, ha,
      ih (fun c hc => h c (List.mem_cons_of_mem a hc))]

theorem extFromRev_append (l m acc : Str)
    (h : ∀ c ∈ l, c ≠ '/' ∧ c ≠ '.') :
    extFromRev (l ++ m) acc = extFromRev m (l.reverse ++ acc) := by
  induction l generalizing acc with
  | nil => simp
  | cons a as ih =>
    obtain ⟨h1, h2⟩ := h a (List.mem_cons_self a as)
    have hb1 : (a == '/') = false := beq_eq_false_iff_ne.2 h1
    have hb2 : (a == '.') = false := beq_eq_false_iff_ne.2 h2
    simp only [List.cons_append, extFromRev, hb1, hb2, Bool.false_eq_true,
      if_false, List.append_eq]
    rw [ih (a :: acc) (fun c hc => h c (List.mem_cons_of_mem a hc))]
    rw [List.reverse_cons, List.append_assoc, List.singleton_append]

theorem isPrefixList_self_append (l m : Str) :
    isPrefixList l (l ++ m) = true := by
  induction l with
  | nil => rfl
  | cons a as ih => simp [isPrefixList, ih]

theorem trimSuffix_append (t e : Str) : trimSuffix (t ++ e) e = t := by
  unfold trimSuffix hasSuffix
  rw [List.reverse_append,
    if_pos (isPrefixList_self_append e.reverse t.reverse)]
  have hlen : (t ++ e).length - e.length = t.length := by
    rw [List.length_append]; omega
  rw [hlen, List.take_left]

theorem filepathBase_append (dir rest : Str) (hne : rest ≠ [])
    (h : ∀ c ∈ rest, c ≠ '/') :
    filepathBase (dir ++ '/' :: rest) = rest := by
  have hpne : dir ++ '/' :: rest ≠ [] := by cases dir <;> simp
  have hstrip : stripTrailingSlashes (dir ++ '/' :: rest)
      = dir ++ '/' :: rest := by
    obtain ⟨ys, y, rfl⟩ := (List.eq_nil_or_concat rest).resolve_left hne
    simp only [List.concat_eq_append] at h ⊢
    have hy : (y == '/') = false :=
      beq_eq_false_iff_ne.2 (h y (by simp))
    unfold stripTrailingSlashes
    rw [show (dir ++ '/' :: (ys ++ [y])).reverse
        = y :: (ys.reverse ++ '/' :: dir.reverse) from by simp]
    rw [List.dropWhile_cons]
    simp [hy]
  have hafter : afterLastSlash (dir ++ '/' :: rest) = rest := by
    unfold afterLastSlash
    rw [show (dir ++ '/' :: rest).reverse
        = rest.reverse ++ '/' :: dir.reverse from by simp]
    have hall : ∀ c ∈ rest.reverse, (!(c == '/')) = true := by
      intro c hc
      simp [h c (List.mem_reverse.1 hc)]
    rw [takeWhile_append_of_all _ rest.reverse ('/' :: dir.reverse) hall]
    rw [show List.takeWhile (fun c => !(c == '/')) ('/' :: dir.reverse)
        = [] from by simp [List.takeWhile_cons]]
    simp
  unfold filepathBase
  rw [if_neg hpne]
  dsimp only
  rw [hstrip, hafter, if_neg hne]

theorem filepathExt_append_dot (t etail : Str)
    (ht : ∀ c ∈ t, c ≠ '/' ∧ c ≠ '.')
    (he : ∀ c ∈ etail, c ≠ '/' ∧ c ≠ '.') :
    filepathExt (t ++ '.' :: etail) = '.' :: etail := by
  unfold filepathExt
  rw [show (t ++ '.' :: etail).reverse
      = etail.reverse ++ '.' :: t.reverse from by simp]
  rw [extFromRev_append etail.reverse ('.' :: t.reverse) []
    (fun c hc => he c (List.mem_reverse.1 hc))]
  simp [extFromRev]

theorem extractClientID_format (dir t etail : Str)
    (htchars : ∀ c ∈ t, c ≠ '/' ∧ c ≠ '.')
    (hechars : ∀ c ∈ etail, c ≠ '/' ∧ c ≠ '.')
    (hguid : isValidGUID t = true) :
    extractClientID (formatFilename dir t ('.' :: etail)) = t := by
  have hrest : t ++ '.' :: etail ≠ [] := by cases t <;> simp
  have hrchars : ∀ c ∈ t ++ '.' :: etail, c ≠ '/' := by
    intro c hc
    rcases List.mem_append.1 hc with hm | hm
    · exact (htchars c hm).1
    · rcases List.mem_cons.1 hm with hm | hm
      · rw [hm]; decide
      · exact (hechars c hm).1
  have hbase : filepathBase (dir ++ '/' :: (t ++ '.' :: etail))
      = t ++ '.' :: etail :=
    filepathBase_append dir _ hrest hrchars
  unfold formatFilename extractClientID
  dsimp only
  rw [hbase, filepathExt_append_dot t etail htchars hechars,
    trimSuffix_append t ('.' :: etail), if_pos hguid]

/-- C9: for every identity token valid per the spec's 8-4-4-4-12
hexadecimal pattern, formatting a filename from the token with any
directory prefix and any of the three allowed database extensions and
running identity extraction on the result returns the token unchanged:
`extractClientID` is a left-inverse of token formatting. -/
theorem extract_left_inverse_of_format (dir t ext : Str)
    (ht : specValidToken t = true)
    (hext : ext = ".db".data ∨ ext = ".sqlite".data ∨
      ext = ".sqlite3".data) :
    extractClientID (formatFilename dir t ext) = t := by
  have htchars := specValidToken_chars t ht
  have hguid := specValidToken_isValidGUID t ht
  rcases hext with rfl | rfl | rfl
  · exact extractClientID_format dir t ['d', 'b'] htchars (by decide) hguid
  · exact extractClientID_format dir t ['s', 'q', 'l', 'i', 't', 'e']
      htchars (by decide) hguid
  · exact extractClientID_format dir t ['s', 'q', 'l', 'i', 't', 'e', '3']
      htchars (by decide) hguid

/-- C9 witness. -/
theorem extract_left_inverse_of_format_witness :
    extractClientID (formatFilename "/data".data sampleGuid ".db".data)
      = sampleGuid :=
  extract_left_inverse_of_format "/data".data sampleGuid ".db".data
    (by decide) (Or.inl rfl)
